import Mathlib

/-!
Verification development for a two-phase-commit (2PC) system consisting of a
coordinator (`coordinator.py`) and participants (`participant.py`).  The state
machines and handlers of both peers are embedded shallowly: Python dicts become
association lists (`List (key, value)` read through `List.lookup`, updated with
the stale binding removed, so the key-to-value map, the value multiset and the
number of entries are exactly those of the dict; entry order is not observed by
any of the modelled code), Python sets become duplicate-free `List`s, and each
handler becomes a pure function from the peer state (plus the inbound message
or operator command) to the new peer state and the optional reply.  Network
transmission, threads and the random failure-injection path (`failure_rate`,
which the handlers consult before their deterministic logic) are outside the
embedding; each handler models the deterministic path that the sources execute
when the simulated failure does not fire.
-/

namespace TwoPC

abbrev PId := String
abbrev TxId := String

/-- Modelled from the spec: transaction payloads (protocol.py is not part of
the sources).  A payload is a mapping from string keys to string values. -/
abbrev Payload := List (String × String)

/-- Modelled from the spec: the message kinds of protocol.py
(`MessageType`), exactly the kind tokens of the spec. -/
inductive MsgType where
  | PREPARE | VOTE_YES | VOTE_NO | COMMIT | ABORT
  | ACK_COMMIT | ACK_ABORT | QUERY_STATE | STATE_RESPONSE
  | REQUEST_HISTORY | HISTORY_RESPONSE
  deriving DecidableEq, Repr

/-- Modelled from the spec: the `.value` string of each message kind of
protocol.py, as stored into the coordinator `acks` map. -/
def msgTypeValue : MsgType → String
  | .PREPARE => "PREPARE"
  | .VOTE_YES => "VOTE_YES"
  | .VOTE_NO => "VOTE_NO"
  | .COMMIT => "COMMIT"
  | .ABORT => "ABORT"
  | .ACK_COMMIT => "ACK_COMMIT"
  | .ACK_ABORT => "ACK_ABORT"
  | .QUERY_STATE => "QUERY_STATE"
  | .STATE_RESPONSE => "STATE_RESPONSE"
  | .REQUEST_HISTORY => "REQUEST_HISTORY"
  | .HISTORY_RESPONSE => "HISTORY_RESPONSE"

/-- Modelled from the spec: a wire message of protocol.py, the tuple
(kind, transaction id, payload). -/
structure Msg where
  msg_type : MsgType
  transaction_id : TxId
  data : Payload
  deriving DecidableEq, Repr

/-- Coordinator-side transaction status strings
('PREPARING' | 'COMMITTING' | 'ABORTING' | 'COMMITTED' | 'ABORTED'). -/
inductive TxStatus where
  | PREPARING | COMMITTING | ABORTING | COMMITTED | ABORTED
  deriving DecidableEq, Repr

/-- One record of the coordinator history log
(coordinator.py lines 347-352: transaction_id, status, data, timestamp). -/
structure HRecord where
  transaction_id : TxId
  status : TxStatus
  data : Payload
  timestamp : Nat
  deriving DecidableEq, Repr

/-- Coordinator per-transaction record (coordinator.py lines 195-201). -/
structure TxRecord where
  data : Payload
  participants : List PId
  votes : List (PId × Bool)
  acks : List (PId × String)
  status : TxStatus
  deriving DecidableEq, Repr

/-- Coordinator state (coordinator.py `__init__`, lines 15-24). -/
structure CState where
  participants : List (PId × (String × Nat))
  transactions : List (TxId × TxRecord)
  transaction_history : List HRecord
  crashed : Bool
  deriving DecidableEq, Repr

/-- Participant state (participant.py `__init__`, lines 14-34). -/
structure PState where
  prepared_transactions : List TxId
  committed_transactions : List (TxId × Payload)
  aborted_transactions : List TxId
  pending_vote : Option (TxId × Payload)
  pending_commit : Option (TxId × Payload)
  pending_abort : Option (TxId × Payload)
  crashed : Bool
  deriving DecidableEq, Repr

/-- Python `set.add`: insert a transaction id if absent. -/
def setInsert (t : TxId) (l : List TxId) : List TxId :=
  if t ∈ l then l else t :: l

/-- Python guarded `set.remove` / `set.discard`: drop every occurrence. -/
def setRemove (t : TxId) (l : List TxId) : List TxId :=
  l.filter (fun x => decide (x ≠ t))

/-- Python dict assignment `m[k] = v` on an association list: the binding for
`k` becomes `v`; stale bindings for `k` are removed. -/
def mapInsert {α β : Type} [DecidableEq α] (k : α) (v : β) (m : List (α × β)) :
    List (α × β) :=
  (k, v) :: m.filter (fun kv => decide (kv.1 ≠ k))

/-- Python in-place update `m[k]['field'] = ...` of a dict entry: apply `f` to
the value stored under `k`, leave every other entry unchanged. -/
def updateTx {α β : Type} [DecidableEq α] (m : List (α × β)) (k : α) (f : β → β) :
    List (α × β) :=
  m.map (fun kv => if kv.1 = k then (kv.1, f kv.2) else kv)

/-! ### Participant handlers (participant.py) -/

/-- Replies a participant sends on the inbound connection: either a plain
message, or a STATE_RESPONSE whose payload nests a status string and a data
mapping (participant.py line 276). -/
inductive PReply where
  | msg (m : Msg)
  | state (transaction_id : TxId) (status : String) (data : Payload)
  deriving DecidableEq, Repr

/-- `_handle_prepare` (participant.py lines 143-169), deterministic path: the
pending vote slot is loaded with the transaction and no reply is sent (the
vote travels later over a fresh connection). -/
def handlePrepare (s : PState) (t : TxId) (d : Payload) : PState × Option PReply :=
  ({ s with pending_vote := some (t, d) }, none)

/-- `_handle_commit` (participant.py lines 206-231): a COMMIT for a
transaction that is not prepared is answered immediately with ACK_ABORT and
nothing changes; otherwise the pending commit slot is loaded and no reply is
sent. -/
def handleCommit (s : PState) (t : TxId) (d : Payload) : PState × Option PReply :=
  if t ∈ s.prepared_transactions then
    ({ s with pending_commit := some (t, d) }, none)
  else
    (s, some (.msg ⟨.ACK_ABORT, t, []⟩))

/-- `_handle_abort` (participant.py lines 233-254): the pending abort slot is
loaded unconditionally and no reply is sent. -/
def handleAbort (s : PState) (t : TxId) (d : Payload) : PState × Option PReply :=
  ({ s with pending_abort := some (t, d) }, none)

/-- `_handle_query_state` (participant.py lines 256-276): committed first
(with the stored payload), then prepared, then aborted, else UNKNOWN. -/
def handleQueryState (s : PState) (t : TxId) : String × Payload :=
  match s.committed_transactions.lookup t with
  | some d => ("COMMITTED", d)
  | none =>
    if t ∈ s.prepared_transactions then ("PREPARED", [])
    else if t ∈ s.aborted_transactions then ("ABORTED", [])
    else ("UNKNOWN", [])

/-- `_send_vote_to_coordinator` (participant.py lines 283-305): a YES vote
adds the transaction to the prepared set; a NO vote changes nothing.  The
emitted message is the delayed VOTE_RESPONSE payload. -/
def sendVoteToCoordinator (s : PState) (t : TxId) (voteYes : Bool) : PState × Msg :=
  if voteYes then
    ({ s with prepared_transactions := setInsert t s.prepared_transactions },
     ⟨.VOTE_YES, t, []⟩)
  else
    (s, ⟨.VOTE_NO, t, []⟩)

/-- `_handle_vote_command` (participant.py lines 419-437): with no pending
vote the command is a no-op; otherwise the slot is cleared and the vote is
sent. -/
def handleVoteCommand (s : PState) (voteYes : Bool) : PState × Option Msg :=
  match s.pending_vote with
  | none => (s, none)
  | some (t, _) =>
    let r := sendVoteToCoordinator { s with pending_vote := none } t voteYes
    (r.1, some r.2)

/-- Shared abort execution of `_handle_ack_command` and
`_wait_for_ack_abort` (participant.py lines 473-476 and 200-204): drop the id
from prepared if present, add it to aborted. -/
def execAbortLocal (s : PState) (t : TxId) : PState :=
  { s with prepared_transactions := setRemove t s.prepared_transactions,
           aborted_transactions := setInsert t s.aborted_transactions }

/-- `_handle_ack_command` (participant.py lines 439-485).  `ack commit`
requires a pending commit; the transaction moves prepared to committed when it
is prepared, and ACK_COMMIT is sent in every case.  `ack abort` answers a
pending commit first, else a pending abort; the transaction is dropped from
prepared and added to aborted, and ACK_ABORT is sent. -/
def handleAckCommand (s : PState) (ackCommit : Bool) : PState × Option Msg :=
  if ackCommit then
    match s.pending_commit with
    | none => (s, none)
    | some (t, d) =>
      let s1 := { s with pending_commit := none }
      let s2 :=
        if t ∈ s1.prepared_transactions then
          { s1 with
            committed_transactions := mapInsert t d s1.committed_transactions,
            prepared_transactions := setRemove t s1.prepared_transactions }
        else s1
      (s2, some ⟨.ACK_COMMIT, t, []⟩)
  else
    match s.pending_commit with
    | some (t, _) =>
      (execAbortLocal { s with pending_commit := none } t, some ⟨.ACK_ABORT, t, []⟩)
    | none =>
      match s.pending_abort with
      | some (t, _) =>
        (execAbortLocal { s with pending_abort := none } t, some ⟨.ACK_ABORT, t, []⟩)
      | none => (s, none)

/-- `_wait_for_vote` timeout body (participant.py lines 171-178): when the
pending vote still matches the transaction, an automatic NO is sent and the
slot is cleared; the three collections are untouched. -/
def waitForVoteTimeout (s : PState) (t : TxId) : PState × Option Msg :=
  match s.pending_vote with
  | some (t', _) =>
    if t' = t then ({ s with pending_vote := none }, some ⟨.VOTE_NO, t, []⟩)
    else (s, none)
  | none => (s, none)

/-- `_wait_for_ack_commit` timeout body (participant.py lines 180-191):
automatic ACK_COMMIT, then the move prepared to committed when the id is
prepared, and the slot is cleared. -/
def waitForAckCommitTimeout (s : PState) (t : TxId) : PState × Option Msg :=
  match s.pending_commit with
  | some (t', d) =>
    if t' = t then
      let s1 :=
        if t ∈ s.prepared_transactions then
          { s with
            committed_transactions := mapInsert t d s.committed_transactions,
            prepared_transactions := setRemove t s.prepared_transactions }
        else s
      ({ s1 with pending_commit := none }, some ⟨.ACK_COMMIT, t, []⟩)
    else (s, none)
  | none => (s, none)

/-- `_wait_for_ack_abort` timeout body (participant.py lines 193-204):
automatic ACK_ABORT, then the drop from prepared and the add to aborted, and
the slot is cleared. -/
def waitForAckAbortTimeout (s : PState) (t : TxId) : PState × Option Msg :=
  match s.pending_abort with
  | some (t', _) =>
    if t' = t then
      ({ execAbortLocal s t with pending_abort := none }, some ⟨.ACK_ABORT, t, []⟩)
    else (s, none)
  | none => (s, none)

/-- One history record applied during `_request_history_from_coordinator`
(participant.py lines 352-364): a COMMITTED record stores the payload under
the id and removes the id from prepared; an ABORTED record adds the id to
aborted and removes it from prepared; any other status is ignored. -/
def syncRecord (s : PState) (r : HRecord) : PState :=
  match r.status with
  | .COMMITTED =>
    { s with
      committed_transactions := mapInsert r.transaction_id r.data s.committed_transactions,
      prepared_transactions := setRemove r.transaction_id s.prepared_transactions }
  | .ABORTED =>
    { s with
      aborted_transactions := setInsert r.transaction_id s.aborted_transactions,
      prepared_transactions := setRemove r.transaction_id s.prepared_transactions }
  | _ => s

/-- The whole history loop of `_request_history_from_coordinator`
(participant.py lines 351-364). -/
def syncHistory (s : PState) (h : List HRecord) : PState :=
  h.foldl syncRecord s

/-- `_handle_crash` (participant.py lines 487-496): only the crash flag is
set; nothing else in the state is touched. -/
def handleCrash (s : PState) : PState :=
  if s.crashed then s else { s with crashed := true }

/-- `_handle_recover` (participant.py lines 498-520), with `h = some records`
when the history request succeeds and `h = none` when it fails after a
successful re-registration; either way the crash flag is cleared. -/
def handleRecover (s : PState) (h : Option (List HRecord)) : PState :=
  if s.crashed = false then s
  else
    match h with
    | some records => { syncHistory s records with crashed := false }
    | none => { s with crashed := false }

/-- `_process_message` (participant.py lines 121-141), deterministic path. -/
def processMessage (s : PState) (m : Msg) : PState × Option PReply :=
  match m.msg_type with
  | .PREPARE => handlePrepare s m.transaction_id m.data
  | .COMMIT => handleCommit s m.transaction_id m.data
  | .ABORT => handleAbort s m.transaction_id m.data
  | .QUERY_STATE =>
    let r := handleQueryState s m.transaction_id
    (s, some (.state m.transaction_id r.1 r.2))
  | _ => (s, none)

/-- `_handle_request` (participant.py lines 99-119): a crashed participant
ignores every inbound message without any state change. -/
def pHandleRequest (s : PState) (m : Msg) : PState × Option PReply :=
  if s.crashed then (s, none) else processMessage s m

/-! ### Coordinator handlers (coordinator.py) -/

/-- The four inbound request shapes of the coordinator connection handler
(coordinator.py lines 62-142). -/
inductive CRequest where
  | register (pid : PId) (host : String) (port : Nat)
  | voteResponse (pid : PId) (m : Msg)
  | ackResponse (pid : PId) (m : Msg)
  | historyRequest (pid : PId)
  deriving DecidableEq, Repr

/-- Replies the coordinator connection handler can send. -/
inductive CReply where
  | ok
  | historyResponse (h : List HRecord)
  deriving DecidableEq, Repr

/-- The request kinds that pass the crash gate of
`_handle_participant_connection` (coordinator.py line 73). -/
def crashAllowed : CRequest → Bool
  | .register _ _ _ => true
  | .historyRequest _ => true
  | _ => false

/-- The vote map update `tx['votes'][participant_id] = ...`
(coordinator.py lines 101-104). -/
def voteUpd (pid : PId) (b : Bool) : TxRecord → TxRecord := fun tr =>
  { tr with votes := mapInsert pid b tr.votes }

/-- The ack map update `tx['acks'][participant_id] = ...`
(coordinator.py line 120). -/
def ackUpd (pid : PId) (v : String) : TxRecord → TxRecord := fun tr =>
  { tr with acks := mapInsert pid v tr.acks }

/-- The status update `self.transactions[tid]['status'] = ...`. -/
def statusUpd (st : TxStatus) : TxRecord → TxRecord := fun tr =>
  { tr with status := st }

/-- The per-request bodies of `_handle_participant_connection`
(coordinator.py lines 77-137): REGISTER records the address and answers OK;
VOTE_RESPONSE records the vote under the sender id when the transaction id is
known (VOTE_YES maps to true, anything else to false); ACK_RESPONSE records
the message-kind string under the sender id when the transaction id is known;
HISTORY_REQUEST answers the history log without changing state. -/
def coordHandleCore (c : CState) (r : CRequest) : CState × Option CReply :=
  match r with
  | .register pid host port =>
    ({ c with participants := mapInsert pid (host, port) c.participants }, some .ok)
  | .voteResponse pid m =>
    if (c.transactions.lookup m.transaction_id).isSome then
      let f := voteUpd pid (decide (m.msg_type = .VOTE_YES))
      ({ c with transactions := updateTx c.transactions m.transaction_id f }, none)
    else (c, none)
  | .ackResponse pid m =>
    if (c.transactions.lookup m.transaction_id).isSome then
      let f := ackUpd pid (msgTypeValue m.msg_type)
      ({ c with transactions := updateTx c.transactions m.transaction_id f }, none)
    else (c, none)
  | .historyRequest _ => (c, some (.historyResponse c.transaction_history))

/-- `_handle_participant_connection` (coordinator.py lines 62-142): when the
crash flag is set, only REGISTER and HISTORY_REQUEST reach their bodies; every
other request is dropped without reply or state change. -/
def coordHandleRequest (c : CState) (r : CRequest) : CState × Option CReply :=
  if c.crashed && !crashAllowed r then (c, none) else coordHandleCore c r

/-- The fresh transaction record of `execute_transaction` (coordinator.py
lines 195-201). -/
def freshTx (d : Payload) (snapshot : List PId) : TxRecord :=
  ⟨d, snapshot, [], [], .PREPARING⟩

/-- Transaction initialisation of `execute_transaction` (coordinator.py lines
178-201): refused when crashed or when no participant is registered;
otherwise a fresh record with the current participant keys as snapshot and
status PREPARING is stored. -/
def execBegin (c : CState) (t : TxId) (d : Payload) : CState :=
  if c.crashed then c
  else if c.participants.isEmpty then c
  else
    { c with transactions :=
        mapInsert t (freshTx d (c.participants.map Prod.fst)) c.transactions }

/-- The status move to COMMITTING or ABORTING at the start of Phase 2
(coordinator.py lines 282 and 361). -/
def execMarkDecision (c : CState) (t : TxId) (commit : Bool) : CState :=
  { c with transactions :=
      updateTx c.transactions t (statusUpd (if commit then .COMMITTING else .ABORTING)) }

/-- The terminal step shared by `execute_transaction` (coordinator.py lines
343-352 and 422-431), `_complete_commit` (lines 558-565) and
`_complete_abort` (lines 585-592): the status becomes COMMITTED or ABORTED
and one record is appended to the history log. -/
def execFinish (c : CState) (t : TxId) (commit : Bool) (d : Payload) (now : Nat) :
    CState :=
  let entry : HRecord := ⟨t, if commit then .COMMITTED else .ABORTED, d, now⟩
  { c with
    transactions :=
      updateTx c.transactions t (statusUpd (if commit then .COMMITTED else .ABORTED)),
    transaction_history := c.transaction_history ++ [entry] }

/-- The deadline fill of `execute_transaction` (coordinator.py lines 260-262):
every snapshot member without a recorded vote is recorded as NO. -/
def fillMissingVotes (votes : List (PId × Bool)) (plist : List PId) :
    List (PId × Bool) :=
  plist.foldl
    (fun vs p => if p ∈ vs.map Prod.fst then vs else vs ++ [(p, false)]) votes

/-- `all(votes.values())` (coordinator.py line 268). -/
def allVotesYes (votes : List (PId × Bool)) : Bool :=
  votes.all (fun pv => pv.2)

/-- The Phase 1 decision of `execute_transaction` (coordinator.py lines
255-279): fill the missing snapshot votes with NO, then COMMIT exactly when
every value of the votes map is YES. -/
def phase1Decision (votes : List (PId × Bool)) (plist : List PId) : Bool :=
  allVotesYes (fillMissingVotes votes plist)

/-- The COMMIT or ABORT message of Phase 2. -/
def decisionMsg (commit : Bool) (t : TxId) (d : Payload) : Msg :=
  ⟨if commit then .COMMIT else .ABORT, t, d⟩

/-- The Phase 2 send loop of `execute_transaction` (coordinator.py lines
288-295 and 367-374): the decision goes to every key of the coordinator
participant registry as it stands at that moment
(`for participant_id in self.participants.keys()`). -/
def phase2Sends (c : CState) (t : TxId) (commit : Bool) (d : Payload) :
    List (PId × Msg) :=
  c.participants.map (fun kv => (kv.1, decisionMsg commit t d))

/-- The send loops of `_complete_commit` and `_complete_abort`
(coordinator.py lines 546-551 and 573-578): the decision goes to every member
of the stored snapshot that is still registered. -/
def completeSends (c : CState) (snapshot : List PId) (t : TxId) (commit : Bool)
    (d : Payload) : List (PId × Msg) :=
  (snapshot.filter (fun p => decide (p ∈ c.participants.map Prod.fst))).map
    (fun p => (p, decisionMsg commit t d))

/-- The stored snapshot of a transaction (`tx_info['participants']`). -/
def txSnapshot (c : CState) (t : TxId) : List PId :=
  match c.transactions.lookup t with
  | some rec => rec.participants
  | none => []

/-- The per-transaction decision of `_recover_coordinator` (coordinator.py
lines 503-534), `some true` meaning COMMIT is sent, `some false` meaning
ABORT is sent, `none` meaning the transaction is not processed (terminal
statuses are filtered out at lines 458-463).  PREPARING commits exactly when
the votes map is as long as the snapshot and every recorded vote is YES;
COMMITTING commits through every branch of its observation split; ABORTING
always aborts. -/
def recoverDecision (status : TxStatus) (votes : List (PId × Bool))
    (parts : List PId) (states : List (PId × String)) : Option Bool :=
  match status with
  | .PREPARING =>
    some (decide (votes.length = parts.length) && votes.all (fun pv => pv.2))
  | .COMMITTING =>
    let committedCount := (states.filter (fun ps => ps.2 = "COMMITTED")).length
    let preparedCount := (states.filter (fun ps => ps.2 = "PREPARED")).length
    if committedCount > 0 then some true
    else if preparedCount = parts.length then some true
    else some true
  | .ABORTING => some false
  | _ => none

/-! ### Participant operations as one step function -/

/-- The participant operations that touch the three transaction collections:
vote sending, the two ack commands, the three timeout bodies, the three
inbound message handlers, the crash command and one history record of the
resynchronisation loop. -/
inductive POp where
  | voteCmd (voteYes : Bool)
  | ackCmd (ackCommit : Bool)
  | voteTimeout (t : TxId)
  | ackCommitTimeout (t : TxId)
  | ackAbortTimeout (t : TxId)
  | recvCommit (t : TxId) (d : Payload)
  | recvAbort (t : TxId) (d : Payload)
  | recvQuery (t : TxId)
  | crash
  | syncOne (r : HRecord)
  deriving DecidableEq, Repr

/-- The state component of each participant operation. -/
def pstep (s : PState) : POp → PState
  | .voteCmd voteYes => (handleVoteCommand s voteYes).1
  | .ackCmd ackCommit => (handleAckCommand s ackCommit).1
  | .voteTimeout t => (waitForVoteTimeout s t).1
  | .ackCommitTimeout t => (waitForAckCommitTimeout s t).1
  | .ackAbortTimeout t => (waitForAckAbortTimeout s t).1
  | .recvCommit t d => (handleCommit s t d).1
  | .recvAbort t d => (handleAbort s t d).1
  | .recvQuery _ => s
  | .crash => handleCrash s
  | .syncOne r => syncRecord s r

/-- Pairwise disjointness of a prepared set, a committed map and an aborted
set of transaction ids. -/
def disjoint3 (pre : List TxId) (com : List (TxId × Payload)) (abo : List TxId) :
    Prop :=
  (∀ t ∈ pre, t ∉ com.map Prod.fst ∧ t ∉ abo) ∧
  (∀ t ∈ com.map Prod.fst, t ∉ abo)

instance (pre : List TxId) (com : List (TxId × Payload)) (abo : List TxId) :
    Decidable (disjoint3 pre com abo) := by
  unfold disjoint3; infer_instance

/-- Every transaction id sits in at most one of the three collections. -/
def disjointState (s : PState) : Prop :=
  disjoint3 s.prepared_transactions s.committed_transactions s.aborted_transactions

instance (s : PState) : Decidable (disjointState s) := by
  unfold disjointState; infer_instance

/-- The proviso under which each participant operation preserves
`disjointState`: the id an operation moves into a collection must not already
sit in a conflicting one (the handlers themselves never check this). -/
def sideCondB (s : PState) : POp → Bool
  | .voteCmd voteYes =>
    !voteYes ||
      (match s.pending_vote with
       | some td =>
         decide (td.1 ∉ s.committed_transactions.map Prod.fst) &&
           decide (td.1 ∉ s.aborted_transactions)
       | none => true)
  | .ackCmd ackCommit =>
    ackCommit ||
      (match s.pending_commit with
       | some td => decide (td.1 ∉ s.committed_transactions.map Prod.fst)
       | none =>
         match s.pending_abort with
         | some td => decide (td.1 ∉ s.committed_transactions.map Prod.fst)
         | none => true)
  | .ackAbortTimeout t =>
    (match s.pending_abort with
     | some td =>
       if td.1 = t then decide (td.1 ∉ s.committed_transactions.map Prod.fst)
       else true
     | none => true)
  | .syncOne r =>
    (match r.status with
     | .COMMITTED => decide (r.transaction_id ∉ s.aborted_transactions)
     | .ABORTED => decide (r.transaction_id ∉ s.committed_transactions.map Prod.fst)
     | _ => true)
  | _ => true

/-! ### Coordinator operations as one step function -/

/-- The coordinator operations that touch the transaction table or the
history log: transaction initialisation, the Phase 2 status move, the
terminal step (driver or reconciler) and an inbound request. -/
inductive COp where
  | begin (t : TxId) (d : Payload)
  | mark (t : TxId) (commit : Bool)
  | finish (t : TxId) (commit : Bool) (d : Payload) (now : Nat)
  | request (r : CRequest)
  deriving DecidableEq, Repr

/-- The state component of each coordinator operation. -/
def cstep (c : CState) : COp → CState
  | .begin t d => execBegin c t d
  | .mark t commit => execMarkDecision c t commit
  | .finish t commit d now => execFinish c t commit d now
  | .request r => (coordHandleRequest c r).1

/-- The call contexts of the coordinator operations as they occur in the
source: `begin` happens on a freshly minted id (uuid, coordinator.py line
182); `mark` and `finish` are only reached while the transaction is still
non-terminal (lines 282, 343, 361, 422; the reconciler filters on
PREPARING, COMMITTING and ABORTING at lines 458-463). -/
def cSideCondB (c : CState) : COp → Bool
  | .begin t _ => (c.transactions.lookup t).isNone
  | .mark t _ =>
    (match c.transactions.lookup t with
     | some tr => !(decide (tr.status = .COMMITTED) || decide (tr.status = .ABORTED))
     | none => true)
  | .finish t _ _ _ =>
    (match c.transactions.lookup t with
     | some tr => !(decide (tr.status = .COMMITTED) || decide (tr.status = .ABORTED))
     | none => false)
  | .request _ => true

/-- Number of history records carrying a given transaction id. -/
def historyCount (c : CState) (t : TxId) : Nat :=
  (c.transaction_history.filter (fun entry => decide (entry.transaction_id = t))).length

/-- Whether the stored status of a transaction is terminal. -/
def txTerminalB (c : CState) (t : TxId) : Bool :=
  match c.transactions.lookup t with
  | some tr => decide (tr.status = .COMMITTED) || decide (tr.status = .ABORTED)
  | none => false

/-- Every transaction id has exactly one history record when its stored
status is terminal and none otherwise. -/
def historyInv (c : CState) : Prop :=
  ∀ t, historyCount c t = cond (txTerminalB c t) 1 0

/-! ### Lemmas about the set and map encodings -/

theorem mem_setInsert (x t : TxId) (l : List TxId) :
    x ∈ setInsert t l ↔ x = t ∨ x ∈ l := by
  unfold setInsert
  split
  · constructor
    · intro hx; exact Or.inr hx
    · rintro (h | h)
      · subst h; assumption
      · exact h
  · simp [List.mem_cons]

theorem mem_setRemove (x t : TxId) (l : List TxId) :
    x ∈ setRemove t l ↔ x ∈ l ∧ x ≠ t := by
  unfold setRemove
  simp [List.mem_filter]

theorem keys_mapInsert {α β : Type} [DecidableEq α] (x k : α) (v : β)
    (m : List (α × β)) :
    x ∈ (mapInsert k v m).map Prod.fst ↔ x = k ∨ x ∈ m.map Prod.fst := by
  unfold mapInsert
  simp only [List.map_cons, List.mem_cons, List.mem_map, List.mem_filter]
  constructor
  · rintro (h | ⟨kv, ⟨hkv, _⟩, hfst⟩)
    · exact Or.inl h
    · exact Or.inr ⟨kv, hkv, hfst⟩
  · rintro (h | ⟨kv, hkv, hfst⟩)
    · exact Or.inl h
    · by_cases hxk : x = k
      · exact Or.inl hxk
      · exact Or.inr ⟨kv, ⟨hkv, by simpa [hfst] using hxk⟩, hfst⟩

theorem lookup_filter_other {α β : Type} [DecidableEq α] [BEq α] [LawfulBEq α]
    (x k : α) (m : List (α × β)) (hxk : x ≠ k) :
    (m.filter (fun kv => decide (kv.1 ≠ k))).lookup x = m.lookup x := by
  induction m with
  | nil => rfl
  | cons kv rest ih =>
    cases kv with
    | mk a b =>
      by_cases hak : a = k
      · subst hak
        have hxa : (x == a) = false := beq_false_of_ne hxk
        have hfilter : List.filter (fun kv => decide (kv.1 ≠ a)) ((a, b) :: rest)
            = List.filter (fun kv => decide (kv.1 ≠ a)) rest := by
          simp [List.filter_cons]
        rw [hfilter, ih, List.lookup_cons, hxa]
      · have hfilter : List.filter (fun kv => decide (kv.1 ≠ k)) ((a, b) :: rest)
            = (a, b) :: List.filter (fun kv => decide (kv.1 ≠ k)) rest := by
          simp [List.filter_cons, hak]
        rw [hfilter, List.lookup_cons, List.lookup_cons, ih]

theorem lookup_mapInsert_self {α β : Type} [DecidableEq α] [BEq α] [LawfulBEq α]
    (k : α) (v : β) (m : List (α × β)) :
    (mapInsert k v m).lookup k = some v := by
  unfold mapInsert
  rw [List.lookup_cons]
  simp

theorem lookup_mapInsert_ne {α β : Type} [DecidableEq α] [BEq α] [LawfulBEq α]
    (x k : α) (v : β) (m : List (α × β)) (hxk : x ≠ k) :
    (mapInsert k v m).lookup x = m.lookup x := by
  unfold mapInsert
  rw [List.lookup_cons]
  have hne : (x == k) = false := beq_false_of_ne hxk
  rw [hne]
  exact lookup_filter_other x k m hxk

theorem lookup_updateTx_self {α β : Type} [DecidableEq α] [BEq α] [LawfulBEq α]
    (m : List (α × β)) (k : α) (f : β → β) :
    (updateTx m k f).lookup k = (m.lookup k).map f := by
  induction m with
  | nil => rfl
  | cons kv rest ih =>
    cases kv with
    | mk a b =>
      by_cases hak : a = k
      · subst hak
        have hmap : updateTx ((a, b) :: rest) a f = (a, f b) :: updateTx rest a f := by
          simp [updateTx]
        rw [hmap, List.lookup_cons, List.lookup_cons, beq_self_eq_true]
        rfl
      · have hmap : updateTx ((a, b) :: rest) k f = (a, b) :: updateTx rest k f := by
          simp [updateTx, hak]
        have hka : (k == a) = false := beq_false_of_ne fun h => hak h.symm
        rw [hmap, List.lookup_cons, List.lookup_cons, hka]
        exact ih

theorem lookup_updateTx_ne {α β : Type} [DecidableEq α] [BEq α] [LawfulBEq α]
    (m : List (α × β)) (k x : α) (f : β → β) (hxk : x ≠ k) :
    (updateTx m k f).lookup x = m.lookup x := by
  induction m with
  | nil => rfl
  | cons kv rest ih =>
    cases kv with
    | mk a b =>
      by_cases hak : a = k
      · subst hak
        have hxa : (x == a) = false := beq_false_of_ne hxk
        have hmap : updateTx ((a, b) :: rest) a f = (a, f b) :: updateTx rest a f := by
          simp [updateTx]
        rw [hmap, List.lookup_cons, List.lookup_cons, hxa]
        exact ih
      · have hmap : updateTx ((a, b) :: rest) k f = (a, b) :: updateTx rest k f := by
          simp [updateTx, hak]
        rw [hmap, List.lookup_cons, List.lookup_cons]
        cases hxa : x == a
        · exact ih
        · rfl

theorem lookup_eq_none_of_not_mem_keys {α β : Type} [BEq α] [LawfulBEq α]
    (x : α) (m : List (α × β)) (hx : x ∉ m.map Prod.fst) :
    m.lookup x = none := by
  rw [List.lookup_eq_none_iff]
  intro p hp
  simp only [bne_iff_ne, ne_eq]
  intro h
  exact hx (List.mem_map.mpr ⟨p, hp, h.symm⟩)

theorem lookup_isSome_of_mem_keys {α β : Type} [BEq α] [LawfulBEq α]
    (x : α) (m : List (α × β)) (hx : x ∈ m.map Prod.fst) :
    ∃ b, m.lookup x = some b := by
  rw [← Option.isSome_iff_exists, List.lookup_isSome_iff]
  rcases List.mem_map.mp hx with ⟨p, hp, hfst⟩
  exact ⟨p, hp, by simp [hfst]⟩

theorem lookup_append_left {α β : Type} [BEq α] [LawfulBEq α]
    (x : α) (m m2 : List (α × β)) (b : β) (h : m.lookup x = some b) :
    (m ++ m2).lookup x = some b := by
  rw [List.lookup_append, h]
  rfl

theorem lookup_append_right {α β : Type} [BEq α] [LawfulBEq α]
    (x : α) (m m2 : List (α × β)) (h : m.lookup x = none) :
    (m ++ m2).lookup x = m2.lookup x := by
  rw [List.lookup_append, h]
  rfl

/-! ### Preservation lemmas for the three participant collections -/

theorem disjoint3_insert_pre {pre : List TxId} {com : List (TxId × Payload)}
    {abo : List TxId} {t : TxId} (hd : disjoint3 pre com abo)
    (hc : t ∉ com.map Prod.fst) (ha : t ∉ abo) :
    disjoint3 (setInsert t pre) com abo := by
  constructor
  · intro x hx
    rcases (mem_setInsert x t pre).mp hx with h | h
    · subst h; exact ⟨hc, ha⟩
    · exact hd.1 x h
  · exact hd.2

theorem disjoint3_commit_move {pre : List TxId} {com : List (TxId × Payload)}
    {abo : List TxId} {t : TxId} {d : Payload} (hd : disjoint3 pre com abo)
    (ha : t ∉ abo) :
    disjoint3 (setRemove t pre) (mapInsert t d com) abo := by
  constructor
  · intro x hx
    obtain ⟨hx1, hx2⟩ := (mem_setRemove x t pre).mp hx
    obtain ⟨hcx, hax⟩ := hd.1 x hx1
    refine ⟨fun hk => ?_, hax⟩
    rcases (keys_mapInsert x t d com).mp hk with h | h
    · exact hx2 h
    · exact hcx h
  · intro x hx
    rcases (keys_mapInsert x t d com).mp hx with h | h
    · subst h; exact ha
    · exact hd.2 x h

theorem disjoint3_abort_move {pre : List TxId} {com : List (TxId × Payload)}
    {abo : List TxId} {t : TxId} (hd : disjoint3 pre com abo)
    (hc : t ∉ com.map Prod.fst) :
    disjoint3 (setRemove t pre) com (setInsert t abo) := by
  constructor
  · intro x hx
    obtain ⟨hx1, hx2⟩ := (mem_setRemove x t pre).mp hx
    obtain ⟨hcx, hax⟩ := hd.1 x hx1
    refine ⟨hcx, fun hk => ?_⟩
    rcases (mem_setInsert x t abo).mp hk with h | h
    · exact hx2 h
    · exact hax h
  · intro x hx hk
    rcases (mem_setInsert x t abo).mp hk with h | h
    · subst h; exact hc hx
    · exact hd.2 x hx h

/-! ### Claim C1 -/

/-- C1 (amended): each participant operation (vote sending, ack commit, ack
abort, the timeout handlers, each record of history resynchronisation)
preserves the disjointness of the three collections only under a proviso on
the id it moves: a YES vote requires the id not already committed or aborted;
ack abort and the abort-ack timeout require the id not already committed; a
COMMITTED history record requires the id not already aborted and an ABORTED
record requires it not already committed.  The remaining operations (ack
commit and its timeout, NO votes, message receipt, state query, crash)
preserve disjointness unconditionally (their proviso is `true`). -/
theorem C1_ops_preserve_disjointness_under_proviso :
    ∀ (s : PState) (op : POp), disjointState s → sideCondB s op = true →
      disjointState (pstep s op) := by
  intro s op hd hside
  cases op with
  | voteCmd voteYes =>
    cases hpv : s.pending_vote with
    | none => simpa [pstep, handleVoteCommand, hpv] using hd
    | some td =>
      cases td with
      | mk t d =>
        cases voteYes with
        | false =>
          simpa [pstep, handleVoteCommand, hpv, sendVoteToCoordinator] using hd
        | true =>
          simp only [sideCondB, hpv, Bool.not_true, Bool.false_or,
            Bool.and_eq_true, decide_eq_true_eq] at hside
          simp only [pstep, handleVoteCommand, hpv, sendVoteToCoordinator,
            if_pos rfl, if_true]
          exact disjoint3_insert_pre hd hside.1 hside.2
  | ackCmd ackCommit =>
    cases ackCommit with
    | true =>
      cases hpc : s.pending_commit with
      | none => simpa [pstep, handleAckCommand, hpc] using hd
      | some td =>
        cases td with
        | mk t d =>
          by_cases hp : t ∈ s.prepared_transactions
          · simp only [pstep, handleAckCommand, hpc, if_pos hp, if_true]
            exact disjoint3_commit_move hd (hd.1 t hp).2
          · simpa [pstep, handleAckCommand, hpc, hp] using hd
    | false =>
      cases hpc : s.pending_commit with
      | some td =>
        cases td with
        | mk t d =>
          simp only [sideCondB, hpc, Bool.false_or, decide_eq_true_eq] at hside
          simp only [pstep, handleAckCommand, hpc, execAbortLocal]
          exact disjoint3_abort_move hd hside
      | none =>
        cases hpa : s.pending_abort with
        | none => simpa [pstep, handleAckCommand, hpc, hpa] using hd
        | some td =>
          cases td with
          | mk t d =>
            simp only [sideCondB, hpc, hpa, Bool.false_or,
              decide_eq_true_eq] at hside
            simp only [pstep, handleAckCommand, hpc, hpa, execAbortLocal]
            exact disjoint3_abort_move hd hside
  | voteTimeout t =>
    cases hpv : s.pending_vote with
    | none => simpa [pstep, waitForVoteTimeout, hpv] using hd
    | some td =>
      by_cases ht : td.1 = t
      · simpa [pstep, waitForVoteTimeout, hpv, ht] using hd
      · simpa [pstep, waitForVoteTimeout, hpv, ht] using hd
  | ackCommitTimeout t =>
    cases hpc : s.pending_commit with
    | none => simpa [pstep, waitForAckCommitTimeout, hpc] using hd
    | some td =>
      cases td with
      | mk t' d =>
        by_cases ht : t' = t
        · subst ht
          by_cases hp : t' ∈ s.prepared_transactions
          · simp only [pstep, waitForAckCommitTimeout, hpc, if_pos rfl, if_pos hp,
              if_true]
            exact disjoint3_commit_move hd (hd.1 t' hp).2
          · simpa [pstep, waitForAckCommitTimeout, hpc, hp] using hd
        · simpa [pstep, waitForAckCommitTimeout, hpc, ht] using hd
  | ackAbortTimeout t =>
    cases hpa : s.pending_abort with
    | none => simpa [pstep, waitForAckAbortTimeout, hpa] using hd
    | some td =>
      cases td with
      | mk t' d =>
        by_cases ht : t' = t
        · subst ht
          simp only [sideCondB, hpa, eq_self_iff_true, if_true,
            decide_eq_true_eq] at hside
          have hgoal : pstep s (.ackAbortTimeout t') =
              { execAbortLocal s t' with pending_abort := none } := by
            simp [pstep, waitForAckAbortTimeout, hpa]
          rw [hgoal]
          exact disjoint3_abort_move hd hside
        · simpa [pstep, waitForAckAbortTimeout, hpa, ht] using hd
  | recvCommit t d =>
    by_cases hp : t ∈ s.prepared_transactions
    · simpa [pstep, handleCommit, hp] using hd
    · simpa [pstep, handleCommit, hp] using hd
  | recvAbort t d => simpa [pstep, handleAbort] using hd
  | recvQuery t => simpa [pstep] using hd
  | crash =>
    by_cases hc : s.crashed
    · simpa [pstep, handleCrash, hc] using hd
    · simpa [pstep, handleCrash, hc] using hd
  | syncOne r =>
    cases hst : r.status with
    | COMMITTED =>
      simp only [sideCondB, hst, decide_eq_true_eq] at hside
      simp only [pstep, syncRecord, hst]
      exact disjoint3_commit_move hd hside
    | ABORTED =>
      simp only [sideCondB, hst, decide_eq_true_eq] at hside
      simp only [pstep, syncRecord, hst]
      exact disjoint3_abort_move hd hside
    | PREPARING => simpa [pstep, syncRecord, hst] using hd
    | COMMITTING => simpa [pstep, syncRecord, hst] using hd
    | ABORTING => simpa [pstep, syncRecord, hst] using hd

/-- A participant that has locally aborted transaction t1 (it acknowledged a
COMMIT with `ack abort`, which is a reachable run since the coordinator marks
the transaction COMMITTED regardless of the ack kind). -/
def pSyncCexState : PState :=
  { prepared_transactions := []
    committed_transactions := []
    aborted_transactions := ["t1"]
    pending_vote := none
    pending_commit := none
    pending_abort := none
    crashed := false }

/-- C1 counterexample: from a disjoint state in which t1 is aborted, applying
one COMMITTED history record for t1 during resynchronisation leaves t1 in
both the committed and the aborted collection (participant.py lines 357-360
remove the id only from prepared), so the operation does not preserve
disjointness as the claim states. -/
theorem C1_counterexample :
    disjointState pSyncCexState ∧
      ¬ disjointState
        (pstep pSyncCexState (POp.syncOne ⟨"t1", .COMMITTED, [("k", "v")], 0⟩)) := by
  decide

/-- A participant about to vote YES on a fresh transaction. -/
def pVoteWitnessState : PState :=
  { prepared_transactions := []
    committed_transactions := []
    aborted_transactions := []
    pending_vote := some ("t2", [("k", "v")])
    pending_commit := none
    pending_abort := none
    crashed := false }

/-- Witness for C1: the hypotheses of the amended theorem hold at a concrete
state and operation. -/
theorem C1_witness :
    disjointState pVoteWitnessState ∧
      sideCondB pVoteWitnessState (POp.voteCmd true) = true ∧
      disjointState (pstep pVoteWitnessState (POp.voteCmd true)) :=
  ⟨by decide, by decide,
    C1_ops_preserve_disjointness_under_proviso pVoteWitnessState (POp.voteCmd true)
      (by decide) (by decide)⟩

/-! ### Claim C7 -/

/-- C7: a COMMIT message for a transaction id that is not in the prepared set
is answered immediately with ACK_ABORT and the participant state (all three
collections and all pending slots) stays exactly as it was; the same holds
through the non-crashed dispatcher. -/
theorem C7_commit_without_prepare_rejected :
    ∀ (s : PState) (t : TxId) (d : Payload), t ∉ s.prepared_transactions →
      handleCommit s t d = (s, some (.msg ⟨.ACK_ABORT, t, []⟩)) ∧
      (s.crashed = false →
        pHandleRequest s ⟨.COMMIT, t, d⟩ = (s, some (.msg ⟨.ACK_ABORT, t, []⟩))) := by
  intro s t d hp
  constructor
  · simp [handleCommit, hp]
  · intro hc
    simp [pHandleRequest, hc, processMessage, handleCommit, hp]

/-- Witness for C7 at a concrete state. -/
theorem C7_witness :
    handleCommit pSyncCexState "t9" [("k", "v")]
      = (pSyncCexState, some (.msg ⟨.ACK_ABORT, "t9", []⟩)) :=
  (C7_commit_without_prepare_rejected pSyncCexState "t9" [("k", "v")] (by decide)).1

/-! ### Claim C9 -/

/-- C9: while the crash flag is set, the coordinator dispatcher drops
VOTE_RESPONSE and ACK_RESPONSE without reply or state change but still
processes REGISTER (updating the registry and answering OK) and
HISTORY_REQUEST (answering the history log); a crashed participant
dispatcher drops every inbound message without state change. -/
theorem C9_crash_gate :
    ∀ (c : CState) (pid : PId) (host : String) (port : Nat) (m : Msg) (s : PState),
      c.crashed = true → s.crashed = true →
      coordHandleRequest c (.voteResponse pid m) = (c, none) ∧
      coordHandleRequest c (.ackResponse pid m) = (c, none) ∧
      coordHandleRequest c (.register pid host port) =
        ({ c with participants := mapInsert pid (host, port) c.participants },
          some .ok) ∧
      coordHandleRequest c (.historyRequest pid) =
        (c, some (.historyResponse c.transaction_history)) ∧
      pHandleRequest s m = (s, none) := by
  intro c pid host port m s hc hs
  refine ⟨?_, ?_, ?_, ?_, ?_⟩ <;>
    simp [coordHandleRequest, coordHandleCore, crashAllowed, hc,
      pHandleRequest, hs]

/-- A crashed coordinator with one terminal transaction on record. -/
def cCrashedState : CState :=
  { participants := [("P1", ("localhost", 6001))]
    transactions := [("t1", ⟨[("k", "v")], ["P1"], [("P1", true)], [], .COMMITTED⟩)]
    transaction_history := [⟨"t1", .COMMITTED, [("k", "v")], 7⟩]
    crashed := true }

/-- A crashed participant. -/
def pCrashedState : PState :=
  { prepared_transactions := ["t3"]
    committed_transactions := []
    aborted_transactions := []
    pending_vote := none
    pending_commit := none
    pending_abort := none
    crashed := true }

/-- Witness for C9 at concrete states. -/
theorem C9_witness :
    coordHandleRequest cCrashedState (.voteResponse "P1" ⟨.VOTE_YES, "t1", []⟩)
        = (cCrashedState, none) ∧
      pHandleRequest pCrashedState ⟨.COMMIT, "t3", []⟩ = (pCrashedState, none) :=
  ⟨(C9_crash_gate cCrashedState "P1" "localhost" 6001 ⟨.VOTE_YES, "t1", []⟩
      pCrashedState rfl rfl).1,
    (C9_crash_gate cCrashedState "P1" "localhost" 6001 ⟨.COMMIT, "t3", []⟩
      pCrashedState rfl rfl).2.2.2.2⟩

/-! ### Claim C10 -/

/-- C10: QUERY_STATE reports with the fixed precedence committed (with the
stored payload) before prepared before aborted before UNKNOWN, so an id held
in several collections is reported from the earlier one. -/
theorem C10_query_state_precedence :
    ∀ (s : PState) (t : TxId),
      (∀ d, s.committed_transactions.lookup t = some d →
        handleQueryState s t = ("COMMITTED", d)) ∧
      (t ∈ s.committed_transactions.map Prod.fst →
        (handleQueryState s t).1 = "COMMITTED") ∧
      (s.committed_transactions.lookup t = none → t ∈ s.prepared_transactions →
        handleQueryState s t = ("PREPARED", [])) ∧
      (s.committed_transactions.lookup t = none → t ∉ s.prepared_transactions →
        t ∈ s.aborted_transactions → handleQueryState s t = ("ABORTED", [])) ∧
      (s.committed_transactions.lookup t = none → t ∉ s.prepared_transactions →
        t ∉ s.aborted_transactions → handleQueryState s t = ("UNKNOWN", [])) := by
  intro s t
  refine ⟨?_, ?_, ?_, ?_, ?_⟩
  · intro d hl
    simp [handleQueryState, hl]
  · intro hk
    obtain ⟨d, hl⟩ := lookup_isSome_of_mem_keys t s.committed_transactions hk
    simp [handleQueryState, hl]
  · intro hl hp
    simp [handleQueryState, hl, hp]
  · intro hl hp ha
    simp [handleQueryState, hl, hp, ha]
  · intro hl hp ha
    simp [handleQueryState, hl, hp, ha]

/-- A participant holding t1 in all three collections at once: the query
still answers COMMITTED. -/
def pOverlapState : PState :=
  { prepared_transactions := ["t1"]
    committed_transactions := [("t1", [("k", "v")])]
    aborted_transactions := ["t1"]
    pending_vote := none
    pending_commit := none
    pending_abort := none
    crashed := false }

/-- Witness for C10 at a concrete state. -/
theorem C10_witness :
    handleQueryState pOverlapState "t1" = ("COMMITTED", [("k", "v")]) :=
  (C10_query_state_precedence pOverlapState "t1").1 [("k", "v")] (by decide)

/-! ### Claim C8 -/

theorem syncRecord_preserves_slots (s : PState) (r : HRecord) :
    (syncRecord s r).pending_vote = s.pending_vote ∧
      (syncRecord s r).pending_commit = s.pending_commit ∧
      (syncRecord s r).pending_abort = s.pending_abort := by
  cases hst : r.status <;> simp [syncRecord, hst]

theorem syncHistory_preserves_slots (h : List HRecord) :
    ∀ s : PState,
      (syncHistory s h).pending_vote = s.pending_vote ∧
      (syncHistory s h).pending_commit = s.pending_commit ∧
      (syncHistory s h).pending_abort = s.pending_abort := by
  induction h with
  | nil => intro s; exact ⟨rfl, rfl, rfl⟩
  | cons r rest ih =>
    intro s
    have h1 := syncRecord_preserves_slots s r
    have h2 := ih (syncRecord s r)
    refine ⟨h2.1.trans h1.1, h2.2.1.trans h1.2.1, h2.2.2.trans h1.2.2⟩

/-- A participant with loaded pending slots. -/
def pPendingState : PState :=
  { prepared_transactions := ["t1"]
    committed_transactions := []
    aborted_transactions := []
    pending_vote := some ("t2", [("k", "v")])
    pending_commit := some ("t1", [])
    pending_abort := none
    crashed := false }

/-- C8 counterexample: the crash command only sets the crash flag
(participant.py lines 487-496); the pending slots are not discarded: they
still hold their values afterwards. -/
theorem C8_counterexample :
    (handleCrash pPendingState).crashed = true ∧
      (handleCrash pPendingState).pending_vote = some ("t2", [("k", "v")]) ∧
      (handleCrash pPendingState).pending_commit = some ("t1", []) := by
  decide

/-- C8 (amended): the crash command leaves the pending_vote, pending_commit
and pending_abort slots (and the three collections) exactly as they were,
and the recover operation (history resynchronisation plus clearing the
crash flag, with or without a successful history reply) also leaves all
three slots unchanged: they are neither discarded nor restored. -/
theorem C8_crash_recover_leave_pending_slots :
    ∀ (s : PState) (h : Option (List HRecord)),
      (handleCrash s).pending_vote = s.pending_vote ∧
      (handleCrash s).pending_commit = s.pending_commit ∧
      (handleCrash s).pending_abort = s.pending_abort ∧
      (handleCrash s).prepared_transactions = s.prepared_transactions ∧
      (handleCrash s).committed_transactions = s.committed_transactions ∧
      (handleCrash s).aborted_transactions = s.aborted_transactions ∧
      (handleRecover s h).pending_vote = s.pending_vote ∧
      (handleRecover s h).pending_commit = s.pending_commit ∧
      (handleRecover s h).pending_abort = s.pending_abort := by
  intro s h
  have hcrash :
      (handleCrash s).pending_vote = s.pending_vote ∧
      (handleCrash s).pending_commit = s.pending_commit ∧
      (handleCrash s).pending_abort = s.pending_abort ∧
      (handleCrash s).prepared_transactions = s.prepared_transactions ∧
      (handleCrash s).committed_transactions = s.committed_transactions ∧
      (handleCrash s).aborted_transactions = s.aborted_transactions := by
    by_cases hc : s.crashed <;> simp [handleCrash, hc]
  have hrec :
      (handleRecover s h).pending_vote = s.pending_vote ∧
      (handleRecover s h).pending_commit = s.pending_commit ∧
      (handleRecover s h).pending_abort = s.pending_abort := by
    by_cases hc : s.crashed = false
    · simp [handleRecover, hc]
    · cases h with
      | none => simp [handleRecover, hc]
      | some records =>
        have hs := syncHistory_preserves_slots records s
        simp only [handleRecover, hc, if_false]
        exact ⟨hs.1, hs.2.1, hs.2.2⟩
  exact ⟨hcrash.1, hcrash.2.1, hcrash.2.2.1, hcrash.2.2.2.1, hcrash.2.2.2.2.1,
    hcrash.2.2.2.2.2, hrec.1, hrec.2.1, hrec.2.2⟩

/-! ### Claim C2 -/

/-- A coordinator holding transaction t1 with terminal status COMMITTED and
its history record. -/
def cTerminalState : CState :=
  { participants := [("P1", ("localhost", 6001))]
    transactions := [("t1", ⟨[("k", "v")], ["P1"], [], [], .COMMITTED⟩)]
    transaction_history := [⟨"t1", .COMMITTED, [("k", "v")], 3⟩]
    crashed := false }

/-- C2 counterexample: transaction t1 is terminal (COMMITTED), yet a late
VOTE_RESPONSE still changes its votes map (the handler at coordinator.py
lines 98-104 checks only that the id is in the table, never the status), so
the message is not discarded as the claim states. -/
theorem C2_counterexample :
    txTerminalB cTerminalState "t1" = true ∧
      ((coordHandleRequest cTerminalState
            (.voteResponse "P2" ⟨.VOTE_YES, "t1", []⟩)).1.transactions.lookup
          "t1").map TxRecord.votes
        ≠ (cTerminalState.transactions.lookup "t1").map TxRecord.votes := by
  decide

/-- C2 (amended): a VOTE_RESPONSE or ACK_RESPONSE is discarded exactly when
its transaction id is absent from the coordinator transaction table; when the
id is present the votes (resp. acks) map is updated even if the stored status
is terminal, with the status untouched; the decision history is never altered
by either handler. -/
theorem C2_late_responses_update_maps :
    ∀ (c : CState) (pid : PId) (m : Msg), c.crashed = false →
      ((coordHandleRequest c (.voteResponse pid m)).1.transaction_history
          = c.transaction_history) ∧
      ((coordHandleRequest c (.ackResponse pid m)).1.transaction_history
          = c.transaction_history) ∧
      (c.transactions.lookup m.transaction_id = none →
        coordHandleRequest c (.voteResponse pid m) = (c, none) ∧
        coordHandleRequest c (.ackResponse pid m) = (c, none)) ∧
      (∀ tr, c.transactions.lookup m.transaction_id = some tr →
        ∃ tr1,
          (coordHandleRequest c (.voteResponse pid m)).1.transactions.lookup
              m.transaction_id = some tr1 ∧
            tr1.votes.lookup pid = some (decide (m.msg_type = .VOTE_YES)) ∧
            tr1.status = tr.status) ∧
      (∀ tr, c.transactions.lookup m.transaction_id = some tr →
        ∃ tr2,
          (coordHandleRequest c (.ackResponse pid m)).1.transactions.lookup
              m.transaction_id = some tr2 ∧
            tr2.acks.lookup pid = some (msgTypeValue m.msg_type) ∧
            tr2.status = tr.status) := by
  intro c pid m hcr
  have hgate : ∀ r : CRequest, coordHandleRequest c r = coordHandleCore c r := by
    intro r
    simp [coordHandleRequest, hcr]
  refine ⟨?_, ?_, ?_, ?_, ?_⟩
  · rw [hgate]
    cases hl : c.transactions.lookup m.transaction_id with
    | none => simp [coordHandleCore, hl]
    | some tr => simp [coordHandleCore, hl]
  · rw [hgate]
    cases hl : c.transactions.lookup m.transaction_id with
    | none => simp [coordHandleCore, hl]
    | some tr => simp [coordHandleCore, hl]
  · intro hl
    rw [hgate, hgate]
    constructor <;> simp [coordHandleCore, hl]
  · intro tr hl
    rw [hgate]
    refine ⟨{ tr with votes := mapInsert pid (decide (m.msg_type = .VOTE_YES)) tr.votes },
      ?_, ?_, rfl⟩
    · simp only [coordHandleCore, hl, Option.isSome_some, if_true]
      rw [lookup_updateTx_self, hl]
      rfl
    · exact lookup_mapInsert_self pid _ tr.votes
  · intro tr hl
    rw [hgate]
    refine ⟨{ tr with acks := mapInsert pid (msgTypeValue m.msg_type) tr.acks },
      ?_, ?_, rfl⟩
    · simp only [coordHandleCore, hl, Option.isSome_some, if_true]
      rw [lookup_updateTx_self, hl]
      rfl
    · exact lookup_mapInsert_self pid _ tr.acks

/-- Witness for C2: applying the amended theorem on the terminal transaction
shows the late vote landing in the votes map. -/
theorem C2_witness :
    ∃ tr1,
      (coordHandleRequest cTerminalState
          (.voteResponse "P2" ⟨.VOTE_YES, "t1", []⟩)).1.transactions.lookup "t1"
        = some tr1 ∧
      tr1.votes.lookup "P2" = some true ∧ tr1.status = .COMMITTED :=
  (C2_late_responses_update_maps cTerminalState "P2" ⟨.VOTE_YES, "t1", []⟩
      rfl).2.2.2.1
    ⟨[("k", "v")], ["P1"], [], [], .COMMITTED⟩ (by decide)

/-! ### Claim C3 -/

/-- A coordinator whose registry now holds P1 and P2, while the snapshot of
in-flight transaction t1 only holds P1 (P2 registered after t1 started). -/
def cLateRegState : CState :=
  { participants := [("P1", ("localhost", 6001)), ("P2", ("localhost", 6002))]
    transactions := [("t1", ⟨[("k", "v")], ["P1"], [("P1", true)], [], .COMMITTING⟩)]
    transaction_history := []
    crashed := false }

/-- C3 counterexample: P2 is not in the snapshot of t1, yet the Phase 2 send
loop of `execute_transaction` sends it the COMMIT decision, because the loop
iterates over the current registry (coordinator.py lines 288 and 367), so a
participant that registered after the transaction started does receive a
decision message. -/
theorem C3_counterexample :
    "P2" ∉ txSnapshot cLateRegState "t1" ∧
      ("P2", decisionMsg true "t1" [("k", "v")])
        ∈ phase2Sends cLateRegState "t1" true [("k", "v")] := by
  decide

/-- C3 (amended): in Phase 2, `execute_transaction` sends the decision to
exactly the keys of the current participant registry at the moment of
sending, not to the stored snapshot — a participant registered after the
transaction started is included; only the recovery completion functions
restrict their sends to stored snapshot members (those still registered). -/
theorem C3_decision_sent_to_current_registry :
    ∀ (c : CState) (t : TxId) (commit : Bool) (d : Payload) (snapshot : List PId),
      (phase2Sends c t commit d).map Prod.fst = c.participants.map Prod.fst ∧
      (∀ pm ∈ phase2Sends c t commit d, pm.2 = decisionMsg commit t d) ∧
      (∀ pm ∈ completeSends c snapshot t commit d,
        pm.1 ∈ snapshot ∧ pm.1 ∈ c.participants.map Prod.fst ∧
          pm.2 = decisionMsg commit t d) := by
  intro c t commit d snapshot
  refine ⟨?_, ?_, ?_⟩
  · simp [phase2Sends, List.map_map, Function.comp]
  · intro pm hpm
    simp only [phase2Sends, List.mem_map] at hpm
    obtain ⟨kv, _, heq⟩ := hpm
    rw [← heq]
  · intro pm hpm
    simp only [completeSends, List.mem_map, List.mem_filter,
      decide_eq_true_eq] at hpm
    obtain ⟨p, ⟨hp1, hp2⟩, heq⟩ := hpm
    rw [← heq]
    obtain ⟨a, ha, hap⟩ := hp2
    exact ⟨hp1, List.mem_map.mpr ⟨a, ha, hap⟩, rfl⟩

/-- Witness for C3: the recovery send list of t1 only targets snapshot
members. -/
theorem C3_witness :
    ("P1", decisionMsg true "t1" [("k", "v")]).1 ∈ (["P1"] : List PId) ∧
      ("P1", decisionMsg true "t1" [("k", "v")]).1
        ∈ cLateRegState.participants.map Prod.fst ∧
      ("P1", decisionMsg true "t1" [("k", "v")]).2
        = decisionMsg true "t1" [("k", "v")] :=
  (C3_decision_sent_to_current_registry cLateRegState "t1" true [("k", "v")]
      ["P1"]).2.2 ("P1", decisionMsg true "t1" [("k", "v")]) (by decide)

/-! ### Claim C5 -/

theorem fill_preserves_present (plist : List PId) :
    ∀ (votes : List (PId × Bool)) (p : PId), p ∈ votes.map Prod.fst →
      (fillMissingVotes votes plist).lookup p = votes.lookup p := by
  induction plist with
  | nil => intro votes p _; rfl
  | cons q ps ih =>
    intro votes p hp
    by_cases hq : q ∈ votes.map Prod.fst
    · have hstep : fillMissingVotes votes (q :: ps) = fillMissingVotes votes ps := by
        simp only [fillMissingVotes, List.foldl_cons]
        rw [if_pos hq]
      rw [hstep]
      exact ih votes p hp
    · have hstep : fillMissingVotes votes (q :: ps)
          = fillMissingVotes (votes ++ [(q, false)]) ps := by
        simp only [fillMissingVotes, List.foldl_cons]
        rw [if_neg hq]
      have hp2 : p ∈ (votes ++ [(q, false)]).map Prod.fst := by
        simp only [List.map_append, List.mem_append]
        exact Or.inl hp
      obtain ⟨b, hb⟩ := lookup_isSome_of_mem_keys p votes hp
      rw [hstep, ih (votes ++ [(q, false)]) p hp2,
        lookup_append_left p votes [(q, false)] b hb, hb]

theorem fill_records_no (plist : List PId) :
    ∀ (votes : List (PId × Bool)) (p : PId), p ∈ plist →
      p ∉ votes.map Prod.fst →
      (fillMissingVotes votes plist).lookup p = some false := by
  induction plist with
  | nil => intro votes p hp _; simp at hp
  | cons q ps ih =>
    intro votes p hp hv
    by_cases hpq : p = q
    · subst hpq
      have hstep : fillMissingVotes votes (p :: ps)
          = fillMissingVotes (votes ++ [(p, false)]) ps := by
        simp only [fillMissingVotes, List.foldl_cons]
        rw [if_neg hv]
      have hp2 : p ∈ (votes ++ [(p, false)]).map Prod.fst := by
        simp
      rw [hstep, fill_preserves_present ps (votes ++ [(p, false)]) p hp2,
        lookup_append_right p votes [(p, false)]
          (lookup_eq_none_of_not_mem_keys p votes hv)]
      rw [List.lookup_cons]
      simp
    · have hp2 : p ∈ ps := by
        rcases List.mem_cons.mp hp with h | h
        · exact absurd h hpq
        · exact h
      by_cases hq : q ∈ votes.map Prod.fst
      · have hstep : fillMissingVotes votes (q :: ps) = fillMissingVotes votes ps := by
          simp only [fillMissingVotes, List.foldl_cons]
          rw [if_pos hq]
        rw [hstep]
        exact ih votes p hp2 hv
      · have hstep : fillMissingVotes votes (q :: ps)
            = fillMissingVotes (votes ++ [(q, false)]) ps := by
          simp only [fillMissingVotes, List.foldl_cons]
          rw [if_neg hq]
        have hv2 : p ∉ (votes ++ [(q, false)]).map Prod.fst := by
          simp only [List.map_append, List.mem_append]
          rintro (h | h)
          · exact hv h
          · simp at h
            exact hpq h
        rw [hstep]
        exact ih (votes ++ [(q, false)]) p hp2 hv2

theorem allVotesYes_fill (plist : List PId) :
    ∀ votes : List (PId × Bool),
      allVotesYes (fillMissingVotes votes plist)
        = (allVotesYes votes
            && plist.all (fun p => decide (p ∈ votes.map Prod.fst))) := by
  induction plist with
  | nil => intro votes; simp [fillMissingVotes]
  | cons q ps ih =>
    intro votes
    by_cases hq : q ∈ votes.map Prod.fst
    · have hstep : fillMissingVotes votes (q :: ps) = fillMissingVotes votes ps := by
        simp only [fillMissingVotes, List.foldl_cons]
        rw [if_pos hq]
      rw [hstep, ih votes, List.all_cons, decide_eq_true hq, Bool.true_and]
    · have hstep : fillMissingVotes votes (q :: ps)
          = fillMissingVotes (votes ++ [(q, false)]) ps := by
        simp only [fillMissingVotes, List.foldl_cons]
        rw [if_neg hq]
      rw [hstep, ih (votes ++ [(q, false)])]
      have h1 : allVotesYes (votes ++ [(q, false)]) = false := by
        simp [allVotesYes]
      rw [h1, List.all_cons, decide_eq_false hq]
      simp only [Bool.false_and, Bool.and_false]

/-- C5 counterexample: with snapshot [P1] and a recorded stray NO vote from
P2 (the VOTE_RESPONSE handler records a vote from any sender id), the
decision is ABORT although every recorded vote of the snapshot member is
YES, so the decision is not taken on the snapshot votes alone. -/
theorem C5_counterexample :
    phase1Decision [("P1", true), ("P2", false)] ["P1"] = false ∧
      (∀ p ∈ (["P1"] : List PId),
        (fillMissingVotes [("P1", true), ("P2", false)] ["P1"]).lookup p
          = some true) := by
  decide

/-- C5 (amended): at the deadline every snapshot member without a recorded
vote is recorded as NO, and the decision is COMMIT exactly when every entry
of the votes map is YES and every snapshot member has a recorded vote — the
votes map may also contain votes from participants outside the snapshot
(recorded by the VOTE_RESPONSE handler without a membership check), and
those count in the decision too. -/
theorem C5_decision_characterisation :
    ∀ (votes : List (PId × Bool)) (plist : List PId),
      (∀ p ∈ plist, p ∉ votes.map Prod.fst →
        (fillMissingVotes votes plist).lookup p = some false) ∧
      (phase1Decision votes plist = true ↔
        ((∀ pv ∈ votes, pv.2 = true) ∧ ∀ p ∈ plist, p ∈ votes.map Prod.fst)) := by
  intro votes plist
  constructor
  · intro p hp hv
    exact fill_records_no plist votes p hp hv
  · unfold phase1Decision
    rw [allVotesYes_fill]
    simp [allVotesYes]

/-- Witness for C5: a snapshot member without a recorded vote is filled in
as NO. -/
theorem C5_witness :
    (fillMissingVotes [("P1", true)] ["P1", "P2"]).lookup "P2" = some false :=
  (C5_decision_characterisation [("P1", true)] ["P1", "P2"]).1 "P2"
    (by decide) (by decide)

/-! ### Claim C6 -/

/-- C6 counterexample: with snapshot [P1, P2] and recorded YES votes from P1
and a stray P3 (so the vote count matches the snapshot size), the reconciler
commits a PREPARING transaction although snapshot member P2 has no recorded
YES vote, so COMMIT is not sent exactly when every snapshot member voted
YES. -/
theorem C6_counterexample :
    recoverDecision .PREPARING [("P1", true), ("P3", true)] ["P1", "P2"] []
        = some true ∧
      ¬ (∀ p ∈ (["P1", "P2"] : List PId),
          ([("P1", true), ("P3", true)] : List (PId × Bool)).lookup p
            = some true) := by
  decide

/-- C6 (amended): for a PREPARING transaction the reconciler sends COMMIT
exactly when the number of recorded votes equals the snapshot size and every
recorded vote is YES (which coincides with every snapshot member having
voted YES only when the votes map mentions snapshot members alone); for a
COMMITTING transaction it sends COMMIT through every branch of its
observation split; for an ABORTING transaction it always sends ABORT — an
ABORTING transaction is never finished as COMMIT. -/
theorem C6_recovery_decision :
    ∀ (votes : List (PId × Bool)) (parts : List PId)
      (states : List (PId × String)),
      (recoverDecision .PREPARING votes parts states = some true ↔
        (votes.length = parts.length ∧ ∀ pv ∈ votes, pv.2 = true)) ∧
      recoverDecision .COMMITTING votes parts states = some true ∧
      recoverDecision .ABORTING votes parts states = some false := by
  intro votes parts states
  refine ⟨?_, ?_, ?_⟩
  · simp [recoverDecision]
  · simp only [recoverDecision]
    split
    · rfl
    · split <;> rfl
  · rfl

/-- Witness for C6: a fully YES-voted PREPARING transaction commits. -/
theorem C6_witness :
    recoverDecision .PREPARING [("P1", true)] ["P1"] [] = some true :=
  (C6_recovery_decision [("P1", true)] ["P1"] []).1.mpr ⟨rfl, by decide⟩

/-! ### Claim C4 -/

theorem historyInv_of_same (c c2 : CState)
    (hh : c2.transaction_history = c.transaction_history)
    (ht : ∀ t, txTerminalB c2 t = txTerminalB c t)
    (hinv : historyInv c) : historyInv c2 := by
  intro t
  unfold historyCount
  rw [hh, ht t]
  exact hinv t

theorem txTerminalB_some (c : CState) (t : TxId) (tr : TxRecord)
    (h : c.transactions.lookup t = some tr) :
    txTerminalB c t
      = (decide (tr.status = .COMMITTED) || decide (tr.status = .ABORTED)) := by
  unfold txTerminalB
  rw [h]

theorem txTerminalB_none (c : CState) (t : TxId)
    (h : c.transactions.lookup t = none) :
    txTerminalB c t = false := by
  unfold txTerminalB
  rw [h]

theorem txTerminalB_congr (c2 c : CState) (t : TxId)
    (h : c2.transactions.lookup t = c.transactions.lookup t) :
    txTerminalB c2 t = txTerminalB c t := by
  unfold txTerminalB
  rw [h]

theorem historyCount_append_entry (c2 c : CState) (entry : HRecord)
    (hh : c2.transaction_history = c.transaction_history ++ [entry]) (t : TxId) :
    historyCount c2 t
      = historyCount c t + (if entry.transaction_id = t then 1 else 0) := by
  unfold historyCount
  rw [hh, List.filter_append, List.length_append]
  by_cases he : entry.transaction_id = t
  · simp [List.filter_cons, he]
  · simp [List.filter_cons, he]

/-- C4: every coordinator operation preserves the invariant that each
transaction id has exactly one history record when its stored status is
terminal and none before — the record is appended exactly at the terminal
transition (`finish`, reached from the driver or from the recovery
reconciler on a still non-terminal transaction), so the history holds at
most one record per transaction id. -/
theorem C4_history_one_record_per_transaction :
    ∀ (c : CState) (op : COp), historyInv c → cSideCondB c op = true →
      historyInv (cstep c op) ∧ ∀ t, historyCount (cstep c op) t ≤ 1 := by
  intro c op hinv hside
  have main : historyInv (cstep c op) := by
    cases op with
    | begin t0 d =>
      by_cases hc : c.crashed
      · have hstep : cstep c (.begin t0 d) = c := by simp [cstep, execBegin, hc]
        rw [hstep]; exact hinv
      · by_cases he : c.participants.isEmpty
        · have hstep : cstep c (.begin t0 d) = c := by
            simp [cstep, execBegin, hc, he]
          rw [hstep]; exact hinv
        · have hnone : c.transactions.lookup t0 = none := by
            simpa [cSideCondB, Option.isNone_iff_eq_none] using hside
          have hstep : cstep c (.begin t0 d)
              = { c with transactions :=
                  mapInsert t0 (freshTx d (c.participants.map Prod.fst)) c.transactions } := by
            simp [cstep, execBegin, hc, he]
          rw [hstep]
          refine historyInv_of_same c _ rfl ?_ hinv
          intro t
          by_cases ht0 : t = t0
          · rw [ht0]
            rw [txTerminalB_some _ t0 (freshTx d (c.participants.map Prod.fst))
                  (lookup_mapInsert_self t0 _ c.transactions),
                txTerminalB_none c t0 hnone]
            rfl
          · exact txTerminalB_congr _ c t
              (lookup_mapInsert_ne t t0 _ c.transactions ht0)
    | mark t0 commit =>
      have hstep : cstep c (.mark t0 commit)
          = { c with transactions :=
              updateTx c.transactions t0 (statusUpd (if commit then .COMMITTING else .ABORTING)) } := by
        simp [cstep, execMarkDecision]
      rw [hstep]
      refine historyInv_of_same c _ rfl ?_ hinv
      intro t
      by_cases ht0 : t = t0
      · rw [ht0]
        cases hl : c.transactions.lookup t0 with
        | none =>
          have h2 : (updateTx c.transactions t0
              (statusUpd (if commit then TxStatus.COMMITTING else TxStatus.ABORTING))).lookup t0
              = none := by
            rw [lookup_updateTx_self, hl]
            rfl
          rw [txTerminalB_none _ t0 h2, txTerminalB_none c t0 hl]
        | some tr =>
          have hterm : (decide (tr.status = TxStatus.COMMITTED)
              || decide (tr.status = TxStatus.ABORTED)) = false := by
            have hx := hside
            simp only [cSideCondB, hl, Bool.not_eq_true'] at hx
            exact hx
          have h2 : (updateTx c.transactions t0
              (statusUpd (if commit then TxStatus.COMMITTING else TxStatus.ABORTING))).lookup t0
              = some (statusUpd (if commit then TxStatus.COMMITTING else TxStatus.ABORTING) tr) := by
            rw [lookup_updateTx_self, hl]
            rfl
          rw [txTerminalB_some _ t0 _ h2, txTerminalB_some c t0 tr hl]
          cases commit <;> simp [statusUpd, hterm]
      · exact txTerminalB_congr _ c t
          (lookup_updateTx_ne c.transactions t0 t _ ht0)
    | finish t0 commit d now =>
      cases hl : c.transactions.lookup t0 with
      | none =>
        exfalso
        simp [cSideCondB, hl] at hside
      | some tr =>
        have hterm : (decide (tr.status = TxStatus.COMMITTED)
            || decide (tr.status = TxStatus.ABORTED)) = false := by
          have hx := hside
          simp only [cSideCondB, hl, Bool.not_eq_true'] at hx
          exact hx
        have hstep : cstep c (.finish t0 commit d now)
            = { c with
                transactions :=
                  updateTx c.transactions t0 (statusUpd (if commit then .COMMITTED else .ABORTED)),
                transaction_history :=
                  c.transaction_history ++ [HRecord.mk t0 (if commit then .COMMITTED else .ABORTED) d now] } := by
          simp [cstep, execFinish]
        rw [hstep]
        intro t
        rw [historyCount_append_entry _ c
            (HRecord.mk t0 (if commit then .COMMITTED else .ABORTED) d now) rfl t]
        by_cases ht0 : t = t0
        · rw [ht0]
          have hcz : historyCount c t0 = 0 := by
            have hx := hinv t0
            rw [txTerminalB_some c t0 tr hl, hterm] at hx
            exact hx
          have h2 : (updateTx c.transactions t0
              (statusUpd (if commit then TxStatus.COMMITTED else TxStatus.ABORTED))).lookup t0
              = some (statusUpd (if commit then TxStatus.COMMITTED else TxStatus.ABORTED) tr) := by
            rw [lookup_updateTx_self, hl]
            rfl
          rw [hcz, if_pos rfl, txTerminalB_some _ t0 _ h2]
          cases commit <;> rfl
        · have hne : ¬ ((HRecord.mk t0 (if commit then TxStatus.COMMITTED else TxStatus.ABORTED) d now).transaction_id = t) :=
            fun h => ht0 h.symm
          rw [if_neg hne, Nat.add_zero,
            txTerminalB_congr _ c t (lookup_updateTx_ne c.transactions t0 t _ ht0)]
          exact hinv t
    | request r =>
      cases r with
      | register pid host port =>
        have hstep : cstep c (.request (.register pid host port))
            = { c with participants := mapInsert pid (host, port) c.participants } := by
          simp [cstep, coordHandleRequest, crashAllowed, coordHandleCore]
        rw [hstep]
        exact historyInv_of_same c _ rfl (fun t => rfl) hinv
      | historyRequest pid =>
        have hstep : cstep c (.request (.historyRequest pid)) = c := by
          simp [cstep, coordHandleRequest, crashAllowed, coordHandleCore]
        rw [hstep]
        exact hinv
      | voteResponse pid m =>
        by_cases hcr : c.crashed
        · have hstep : cstep c (.request (.voteResponse pid m)) = c := by
            simp [cstep, coordHandleRequest, crashAllowed, hcr]
          rw [hstep]; exact hinv
        · cases hl : c.transactions.lookup m.transaction_id with
          | none =>
            have hstep : cstep c (.request (.voteResponse pid m)) = c := by
              simp [cstep, coordHandleRequest, crashAllowed, hcr,
                coordHandleCore, hl]
            rw [hstep]; exact hinv
          | some tr =>
            have hstep : cstep c (.request (.voteResponse pid m))
                = { c with transactions :=
                    updateTx c.transactions m.transaction_id (voteUpd pid (decide (m.msg_type = .VOTE_YES))) } := by
              simp [cstep, coordHandleRequest, crashAllowed, hcr,
                coordHandleCore, hl]
            rw [hstep]
            refine historyInv_of_same c _ rfl ?_ hinv
            intro t
            by_cases ht0 : t = m.transaction_id
            · rw [ht0]
              have h2 : (updateTx c.transactions m.transaction_id
                  (voteUpd pid (decide (m.msg_type = .VOTE_YES)))).lookup m.transaction_id
                  = some (voteUpd pid (decide (m.msg_type = .VOTE_YES)) tr) := by
                rw [lookup_updateTx_self, hl]
                rfl
              rw [txTerminalB_some _ m.transaction_id _ h2,
                txTerminalB_some c m.transaction_id tr hl]
              rfl
            · exact txTerminalB_congr _ c t
                (lookup_updateTx_ne c.transactions m.transaction_id t _ ht0)
      | ackResponse pid m =>
        by_cases hcr : c.crashed
        · have hstep : cstep c (.request (.ackResponse pid m)) = c := by
            simp [cstep, coordHandleRequest, crashAllowed, hcr]
          rw [hstep]; exact hinv
        · cases hl : c.transactions.lookup m.transaction_id with
          | none =>
            have hstep : cstep c (.request (.ackResponse pid m)) = c := by
              simp [cstep, coordHandleRequest, crashAllowed, hcr,
                coordHandleCore, hl]
            rw [hstep]; exact hinv
          | some tr =>
            have hstep : cstep c (.request (.ackResponse pid m))
                = { c with transactions :=
                    updateTx c.transactions m.transaction_id (ackUpd pid (msgTypeValue m.msg_type)) } := by
              simp [cstep, coordHandleRequest, crashAllowed, hcr,
                coordHandleCore, hl]
            rw [hstep]
            refine historyInv_of_same c _ rfl ?_ hinv
            intro t
            by_cases ht0 : t = m.transaction_id
            · rw [ht0]
              have h2 : (updateTx c.transactions m.transaction_id
                  (ackUpd pid (msgTypeValue m.msg_type))).lookup m.transaction_id
                  = some (ackUpd pid (msgTypeValue m.msg_type) tr) := by
                rw [lookup_updateTx_self, hl]
                rfl
              rw [txTerminalB_some _ m.transaction_id _ h2,
                txTerminalB_some c m.transaction_id tr hl]
              rfl
            · exact txTerminalB_congr _ c t
                (lookup_updateTx_ne c.transactions m.transaction_id t _ ht0)
  refine ⟨main, ?_⟩
  intro t
  rw [main t]
  cases txTerminalB (cstep c op) t <;> simp

/-- A fresh coordinator about to finish committing transaction t1. -/
def cFinishState : CState :=
  { participants := [("P1", ("localhost", 6001))]
    transactions := [("t1", ⟨[("k", "v")], ["P1"], [("P1", true)], [], .COMMITTING⟩)]
    transaction_history := []
    crashed := false }

/-- Witness for C4: finishing the COMMITTING transaction t1 appends its
single history record. -/
theorem C4_witness :
    historyInv (cstep cFinishState (.finish "t1" true [("k", "v")] 9)) ∧
      ∀ t, historyCount (cstep cFinishState (.finish "t1" true [("k", "v")] 9)) t ≤ 1 :=
  C4_history_one_record_per_transaction cFinishState (.finish "t1" true [("k", "v")] 9)
    (by
      intro t
      by_cases h : t = "t1"
      · rw [h]
        rfl
      · have hl : cFinishState.transactions.lookup t = none := by
          simp [cFinishState, List.lookup_cons, beq_false_of_ne h]
        rw [txTerminalB_none cFinishState t hl]
        rfl)
    (by decide)

end TwoPC
